import Mathlib

/-!
Shallow embedding of the vaulta-geyser-indexer core (src/types.rs, src/indexer.rs,
src/database.rs, src/redis_cache.rs) and proofs about it.

Conventions of the embedding:
* `u64` values are modelled as `Nat`; where the code casts (`as i64`, `as u64`)
  the wrap is made explicit (`i64_of_u64`, `u64_of_i64_wrap`).
* raw account bytes (`Vec<u8>`) are `List Nat`; `Pubkey` is its 32-byte array.
* wall-clock reads (`OffsetDateTime::now_utc()`) are an explicit parameter.
* fallible external calls (serde serialization, SQL row execution, redis I/O)
  are parameters returning `Except String` / `Option String`, mirroring the `?`
  operators in the source.
* the SQL table and the redis keyspace are association lists keyed by the bound
  key string; `INSERT .. ON CONFLICT (pk) DO UPDATE` is `upsertRow`.
-/

deriving instance DecidableEq for Except

/-- `Pubkey` (solana_sdk): a 32-byte value; modelled as its byte list. -/
abbrev Pubkey : Type := List Nat

/-- types.rs `AssetBalance`. -/
structure AssetBalance where
  mint : Pubkey
  amount : Nat
  decimals : Nat
  deriving DecidableEq

/-- types.rs `PermissionType`. -/
inductive PermissionType where
  | owner
  | admin
  | operator
  | viewer
  deriving DecidableEq

/-- types.rs `Permission`. -/
structure Permission where
  pubkey : Pubkey
  permission_type : PermissionType
  granted_at : Int
  deriving DecidableEq

/-- types.rs `VaultState`; `HashMap<String, AssetBalance>` is modelled as an
association list, `OffsetDateTime` as whole seconds (`Int`). -/
structure VaultState where
  vault_address : Pubkey
  owner : Pubkey
  balance : Nat
  assets : List (String × AssetBalance)
  permissions : List Permission
  last_updated : Int
  slot : Nat
  write_version : Nat
  deriving DecidableEq

/-- types.rs `AccountUpdate`. -/
structure AccountUpdate where
  pubkey : Pubkey
  lamports : Nat
  owner : Pubkey
  executable : Bool
  rent_epoch : Nat
  data : List Nat
  write_version : Nat
  slot : Nat
  is_startup : Bool
  deriving DecidableEq

/-- types.rs `CacheEntry`. -/
structure CacheEntry where
  vault_state : VaultState
  cached_at : Int
  ttl_seconds : Nat
  deriving DecidableEq

/-- Rust slicing `data[a..b]`. -/
def sliceBytes (data : List Nat) (a b : Nat) : List Nat :=
  (data.drop a).take (b - a)

/-- `u64::from_le_bytes`: little-endian, first byte least significant. -/
def u64_from_le (bs : List Nat) : Nat :=
  bs.foldr (fun b acc => b + 256 * acc) 0

/-- `TryInto<[u8; 32]>` on a slice: succeeds iff the sliceBytes has length 32
(indexer.rs line 151-153). -/
def tryInto32 (l : List Nat) : Except String (List Nat) :=
  if l.length = 32 then Except.ok l else Except.error "Invalid owner pubkey length"

/-- `TryInto<[u8; 8]>` on a slice: succeeds iff the sliceBytes has length 8
(indexer.rs line 159-160). -/
def tryInto8 (l : List Nat) : Except String (List Nat) :=
  if l.length = 8 then Except.ok l else Except.error "Invalid balance"

/-- indexer.rs `Indexer::parse_vault_state` (lines 141-183); `now` is the value
`OffsetDateTime::now_utc()` returns at the call. -/
def parse_vault_state (update : AccountUpdate) (now : Int) :
    Except String (Option VaultState) :=
  if update.data.length < 32 then
    Except.ok none
  else
    match tryInto32 (sliceBytes update.data 0 32) with
    | Except.error e => Except.error e
    | Except.ok owner_bytes =>
      let owner : Pubkey := owner_bytes
      let balanceRes : Except String Nat :=
        if 40 ≤ update.data.length then
          match tryInto8 (sliceBytes update.data 32 40) with
          | Except.error e => Except.error e
          | Except.ok bs => Except.ok (u64_from_le bs)
        else
          Except.ok update.lamports
      match balanceRes with
      | Except.error e => Except.error e
      | Except.ok balance =>
        Except.ok (some
          { vault_address := update.pubkey
            owner := owner
            balance := balance
            assets := []
            permissions := []
            last_updated := now
            slot := update.slot
            write_version := update.write_version })

/-- The `VaultState` that `parse_vault_state` builds for a long-enough payload. -/
def parsedState (update : AccountUpdate) (now : Int) : VaultState :=
  { vault_address := update.pubkey
    owner := sliceBytes update.data 0 32
    balance := if 40 ≤ update.data.length then u64_from_le (sliceBytes update.data 32 40)
               else update.lamports
    assets := []
    permissions := []
    last_updated := now
    slot := update.slot
    write_version := update.write_version }

lemma sliceBytes_length_of_le (data : List Nat) (a b : Nat) (h : b ≤ data.length)
    (hab : a ≤ b) : (sliceBytes data a b).length = b - a := by
  simp [sliceBytes]
  omega

lemma parse_vault_state_eq (u : AccountUpdate) (now : Int) :
    parse_vault_state u now =
      if u.data.length < 32 then Except.ok none
      else Except.ok (some (parsedState u now)) := by
  by_cases h : u.data.length < 32
  · simp [parse_vault_state, h]
  · have h32 : (sliceBytes u.data 0 32).length = 32 :=
      sliceBytes_length_of_le u.data 0 32 (by omega) (by omega)
    by_cases h40 : 40 ≤ u.data.length
    · have h8 : (sliceBytes u.data 32 40).length = 8 :=
        sliceBytes_length_of_le u.data 32 40 (by omega) (by omega)
      simp [parse_vault_state, parsedState, h, h40, tryInto32, tryInto8, h32, h8]
    · simp [parse_vault_state, parsedState, h, h40, tryInto32, tryInto8, h32]

/-!  Batcher loop (indexer.rs `Indexer::new`, lines 42-81).

The spawned task races `rx.recv()` against `flush_interval.tick()`.  One run of
the loop is modelled as a list of the events the `tokio::select!` delivered, in
order: `recv u` (a channel item), `tick` (a timer tick), `closed` (the channel
returned `None`).  `flushes` records each batch handed to `process_batch`
(whose error is only logged — the batch is cleared either way). -/
inductive BEvent where
  | recv (u : AccountUpdate)
  | tick
  | closed
  deriving DecidableEq

/-- State of the batcher task: the in-memory batch, the list of batches handed
to `process_batch` so far, and whether the loop has hit `break`. -/
structure BatchState where
  batch : List AccountUpdate
  flushes : List (List AccountUpdate)
  terminated : Bool
  deriving DecidableEq

/-- The batcher task starts with an empty batch (indexer.rs line 43). -/
def initBatch : BatchState := { batch := [], flushes := [], terminated := false }

/-- One iteration of the `tokio::select!` loop (indexer.rs lines 46-80):
a received item is pushed and the batch flushed once `batch.len() >= batch_size`;
a tick flushes a non-empty batch; channel close hits `break` (no flush). -/
def stepBatch (batch_size : Nat) (s : BatchState) (e : BEvent) : BatchState :=
  if s.terminated then s
  else
    match e with
    | BEvent.recv u =>
      if batch_size ≤ (s.batch ++ [u]).length then
        { batch := [], flushes := s.flushes ++ [s.batch ++ [u]], terminated := false }
      else
        { s with batch := s.batch ++ [u] }
    | BEvent.tick =>
      if s.batch.isEmpty then s
      else { batch := [], flushes := s.flushes ++ [s.batch], terminated := false }
    | BEvent.closed => { s with terminated := true }

/-- A whole run of the batcher loop over a sequence of delivered events. -/
def runBatch (batch_size : Nat) (events : List BEvent) : BatchState :=
  events.foldl (stepBatch batch_size) initBatch

lemma stepBatch_recv_accum (batch_size : Nat) (s : BatchState) (u : AccountUpdate)
    (ht : s.terminated = false) (hlt : s.batch.length + 1 < batch_size) :
    stepBatch batch_size s (BEvent.recv u) = { s with batch := s.batch ++ [u] } := by
  simp [stepBatch, ht]
  omega

lemma foldl_recv_accum (batch_size : Nat) (us : List AccountUpdate) :
    ∀ s : BatchState, s.terminated = false →
      s.batch.length + us.length < batch_size →
      (us.map BEvent.recv).foldl (stepBatch batch_size) s =
        { batch := s.batch ++ us, flushes := s.flushes, terminated := false } := by
  induction us with
  | nil =>
    intro s ht _
    cases s
    simp_all
  | cons u rest ih =>
    intro s ht hlen
    have hstep : stepBatch batch_size s (BEvent.recv u) =
        { s with batch := s.batch ++ [u] } := by
      apply stepBatch_recv_accum
      · exact ht
      · simp at hlen; omega
    simp only [List.map_cons, List.foldl_cons, hstep]
    rw [ih]
    · simp
    · simpa using ht
    · simp at hlen ⊢; omega

/-!  Persistence sink (database.rs).

The `vault_states` table is an association list from the bound key string
(`state.vault_address.to_string()`) to the row written by the
`INSERT .. ON CONFLICT (vault_address) DO UPDATE` statement.  External effects
are parameters: `pkStr` is `Pubkey::to_string`, `serA`/`serP` are
`serde_json::to_string` on `assets`/`permissions` (database.rs lines 67-68 and
151-152), `exec` is the outcome of `.execute(..)` for a row (`none` = success),
and `nowDb` is the server-side `NOW()`. -/

/-- Signed 64-bit reinterpretation of a `u64` (`state.slot as i64`, etc.). -/
def i64_of_u64 (n : Nat) : Int :=
  if n < 2 ^ 63 then (n : Int) else (n : Int) - 2 ^ 64

/-- One row of the `vault_states` table, as bound by the upsert statements. -/
structure VaultRow where
  vault_address : String
  owner : String
  balance : Int
  assets : String
  permissions : String
  last_updated : Int
  slot : Int
  write_version : Int
  updated_at : Int
  deriving DecidableEq

/-- Association-list lookup on a string-keyed table (SQL point lookup by PK). -/
def lookupKV {α : Type} : List (String × α) → String → Option α
  | [], _ => none
  | (k, v) :: rest, key => if k = key then some v else lookupKV rest key

/-- `DEL key` / row removal: drop every binding of the key. -/
def delKV {α : Type} : List (String × α) → String → List (String × α)
  | [], _ => []
  | (k, v) :: rest, key =>
    if k = key then delKV rest key else (k, v) :: delKV rest key

/-- `INSERT .. ON CONFLICT (pk) DO UPDATE`: replace the row stored under the
key if present, else append it. -/
def upsertRow {α : Type} : List (String × α) → String → α → List (String × α)
  | [], key, row => [(key, row)]
  | (k, v) :: rest, key, row =>
    if k = key then (key, row) :: rest else (k, v) :: upsertRow rest key row

/-- The row bound by the upsert statements (database.rs lines 87-94 / 171-178)
for a state whose assets/permissions serialized to `aj`/`pj`. -/
def rowOf (pkStr : Pubkey → String) (nowDb : Int) (state : VaultState)
    (aj pj : String) : VaultRow :=
  { vault_address := pkStr state.vault_address
    owner := pkStr state.owner
    balance := i64_of_u64 state.balance
    assets := aj
    permissions := pj
    last_updated := state.last_updated
    slot := i64_of_u64 state.slot
    write_version := i64_of_u64 state.write_version
    updated_at := nowDb }

/-- Serialize one state and execute its upsert statement: the two
`serde_json::to_string(..)?` calls followed by `.execute(..)?`, shared by
`upsert_vault_state` and each iteration of `batch_upsert_vault_states`. -/
def recWrite (pkStr : Pubkey → String)
    (serA : List (String × AssetBalance) → Except String String)
    (serP : List Permission → Except String String)
    (exec : VaultRow → Option String) (nowDb : Int) (state : VaultState) :
    Except String VaultRow :=
  match serA state.assets with
  | Except.error e => Except.error e
  | Except.ok aj =>
    match serP state.permissions with
    | Except.error e => Except.error e
    | Except.ok pj =>
      let row := rowOf pkStr nowDb state aj pj
      match exec row with
      | some e => Except.error e
      | none => Except.ok row

/-- database.rs `Database::upsert_vault_state` (lines 66-99): serialize, bind
and execute a single auto-committed upsert. -/
def upsert_vault_state (pkStr : Pubkey → String)
    (serA : List (String × AssetBalance) → Except String String)
    (serP : List Permission → Except String String)
    (exec : VaultRow → Option String) (nowDb : Int)
    (db : List (String × VaultRow)) (state : VaultState) :
    Except String (List (String × VaultRow)) :=
  match recWrite pkStr serA serP exec nowDb state with
  | Except.error e => Except.error e
  | Except.ok row => Except.ok (upsertRow db (pkStr state.vault_address) row)

/-- The `for state in states` loop of `batch_upsert_vault_states` (database.rs
lines 150-181), threading the transaction-local table. -/
def batchUpsertGo (pkStr : Pubkey → String)
    (serA : List (String × AssetBalance) → Except String String)
    (serP : List Permission → Except String String)
    (exec : VaultRow → Option String) (nowDb : Int) :
    List (String × VaultRow) → List VaultState →
    Except String (List (String × VaultRow))
  | t, [] => Except.ok t
  | t, state :: rest =>
    match recWrite pkStr serA serP exec nowDb state with
    | Except.error e => Except.error e
    | Except.ok row =>
      batchUpsertGo pkStr serA serP exec nowDb
        (upsertRow t (pkStr state.vault_address) row) rest

/-- database.rs `Database::batch_upsert_vault_states` (lines 147-185): run the
per-row loop inside one transaction; `Except.ok` is the committed table,
`Except.error` means the transaction was never committed. -/
def batch_upsert_vault_states (pkStr : Pubkey → String)
    (serA : List (String × AssetBalance) → Except String String)
    (serP : List Permission → Except String String)
    (exec : VaultRow → Option String) (nowDb : Int)
    (db : List (String × VaultRow)) (states : List VaultState) :
    Except String (List (String × VaultRow)) :=
  batchUpsertGo pkStr serA serP exec nowDb db states

/-- The table the caller observes after the batch call: the transaction commits
on success and rolls back (leaving `db`) on error. -/
def commitBatch (pkStr : Pubkey → String)
    (serA : List (String × AssetBalance) → Except String String)
    (serP : List Permission → Except String String)
    (exec : VaultRow → Option String) (nowDb : Int)
    (db : List (String × VaultRow)) (states : List VaultState) :
    List (String × VaultRow) :=
  match batch_upsert_vault_states pkStr serA serP exec nowDb db states with
  | Except.ok t => t
  | Except.error _ => db

lemma lookupKV_upsertRow {α : Type} (t : List (String × α)) (k key : String)
    (row : α) :
    lookupKV (upsertRow t key row) k =
      if key = k then some row else lookupKV t k := by
  induction t with
  | nil => simp [upsertRow, lookupKV]
  | cons p rest ih =>
    obtain ⟨a, b⟩ := p
    by_cases hak : a = key
    · subst hak
      simp [upsertRow, lookupKV]
      by_cases hk : a = k
      · subst hk; simp [lookupKV]
      · simp [lookupKV, hk, Ne.symm hk]
    · simp [upsertRow, hak, lookupKV]
      by_cases hk : a = k
      · subst hk
        have : ¬ key = a := fun h => hak h.symm
        simp [lookupKV, this]
      · simp [lookupKV, hk, ih]

lemma lookupKV_delKV {α : Type} (t : List (String × α)) (key : String) :
    lookupKV (delKV t key) key = none := by
  induction t with
  | nil => simp [delKV, lookupKV]
  | cons p rest ih =>
    obtain ⟨a, b⟩ := p
    by_cases hak : a = key
    · simp [delKV, hak, ih]
    · simp [delKV, hak, lookupKV, ih]

/-!  Cache engine (redis_cache.rs).

The redis keyspace is an association list from key strings to the stored
`CacheEntry` (serde round-trips are transparent in the model).  `now` is the
value `OffsetDateTime::now_utc()` returns inside `get`; connection acquisition
failures are outside this model (they surface like any cache error, see the
reader model below). -/

/-- The cache key `format!("vault:{}", vault_address)`. -/
def cacheKey (vault_address : String) : String := "vault:" ++ vault_address

/-- `(..).whole_seconds() as u64`: a signed 64-bit second count reinterpreted
as unsigned (negative values wrap to huge ones). -/
def u64_of_i64_wrap (i : Int) : Nat := (i % (2 ^ 64)).toNat

/-- redis_cache.rs `RedisCache::get` (lines 30-54): look the key up, re-check
the application-level `cached_at + ttl_seconds` window, delete on expiry.
Returns the reported result and the keyspace afterwards. -/
def cache_get (store : List (String × CacheEntry)) (now : Int)
    (vault_address : String) :
    Option VaultState × List (String × CacheEntry) :=
  let key := cacheKey vault_address
  match lookupKV store key with
  | some entry =>
    let age := u64_of_i64_wrap (now - entry.cached_at)
    if age < entry.ttl_seconds then
      (some entry.vault_state, store)
    else
      (none, delKV store key)
  | none => (none, store)

/-!  Vault reader (indexer.rs `Indexer::get_vault_state`, lines 186-205).

The two cache calls and the database call are I/O whose outcomes are inputs of
the model: `CacheOps.get` is what `cache.get(vault_address).await` returns,
`CacheOps.set` what `cache.set(state).await` returns, `dbGet` what
`self.database.get_vault_state(vault_address).await` returns.  `self.cache` is
the `Option` of those operations. -/

/-- Outcomes of the cache calls made by the reader. -/
structure CacheOps where
  get : Except String (Option VaultState)
  set : VaultState → Except String Unit

/-- indexer.rs `Indexer::get_vault_state` (lines 186-205), with every `?`
made explicit. -/
def get_vault_state (cache : Option CacheOps)
    (dbGet : Except String (Option VaultState)) :
    Except String (Option VaultState) :=
  match cache with
  | some c =>
    match c.get with
    | Except.error e => Except.error e
    | Except.ok (some state) => Except.ok (some state)
    | Except.ok none =>
      match dbGet with
      | Except.error e => Except.error e
      | Except.ok none => Except.ok none
      | Except.ok (some state) =>
        match c.set state with
        | Except.error e => Except.error e
        | Except.ok _ => Except.ok (some state)
  | none =>
    match dbGet with
    | Except.error e => Except.error e
    | Except.ok state => Except.ok state

/-!  Filter stage (indexer.rs `Indexer::process_update`, lines 93-103).

The unbounded channel is modelled by its pending contents; `chanOpen` is
whether the receiver is still alive (`send` only fails when it is not). -/

/-- indexer.rs `Indexer::process_update`: drop non-vault accounts, otherwise
send on the update channel.  Returns the channel contents after the call. -/
def process_update (vault_program_id : Pubkey) (chanOpen : Bool)
    (chan : List AccountUpdate) (update : AccountUpdate) :
    Except String (List AccountUpdate) :=
  if update.owner ≠ vault_program_id then
    Except.ok chan
  else if chanOpen then
    Except.ok (chan ++ [update])
  else
    Except.error "Failed to send update"

/-- The states a flushed batch contributes to the sinks (indexer.rs
`Indexer::process_batch`, lines 106-138): parse each update, keep the `Some`
results.  (`parse_vault_state` never errors — see `C10`.) -/
def process_batch_states (updates : List AccountUpdate) (now : Int) :
    List VaultState :=
  updates.filterMap (fun u =>
    match parse_vault_state u now with
    | Except.ok (some s) => some s
    | _ => none)

/-!  Theorems. -/

/-- C4: decoder contract on payload shape — `parse_vault_state` returns
`Ok(None)` for payloads shorter than 32 bytes, and otherwise a state whose
owner is bytes 0..32, whose balance is the little-endian u64 at bytes 32..40
when at least 40 bytes are present (else the update's lamports), whose
vault_address/slot/write_version copy the update, and whose assets and
permissions are empty. -/
theorem C4_decoder_payload_shape (u : AccountUpdate) (now : Int) :
    (u.data.length < 32 → parse_vault_state u now = Except.ok none) ∧
    (32 ≤ u.data.length →
      parse_vault_state u now = Except.ok (some
        { vault_address := u.pubkey
          owner := sliceBytes u.data 0 32
          balance :=
            if 40 ≤ u.data.length then u64_from_le (sliceBytes u.data 32 40)
            else u.lamports
          assets := []
          permissions := []
          last_updated := now
          slot := u.slot
          write_version := u.write_version })) := by
  constructor
  · intro h
    rw [parse_vault_state_eq]
    simp [h]
  · intro h
    rw [parse_vault_state_eq]
    have hnot : ¬ u.data.length < 32 := by omega
    simp [hnot, parsedState]

/-- Concrete 40-byte update used by decoder witnesses. -/
def c4u : AccountUpdate :=
  { pubkey := [1], lamports := 7, owner := [2], executable := false,
    rent_epoch := 0, data := List.range 40, write_version := 3, slot := 4,
    is_startup := false }

/-- Concrete 3-byte (too short) update used by decoder witnesses. -/
def c4short : AccountUpdate :=
  { pubkey := [1], lamports := 7, owner := [2], executable := false,
    rent_epoch := 0, data := [9, 9, 9], write_version := 3, slot := 4,
    is_startup := false }

/-- Witness for `C4_decoder_payload_shape` at concrete inputs. -/
theorem C4_witness :
    c4short.data.length < 32 ∧ parse_vault_state c4short 5 = Except.ok none ∧
    32 ≤ c4u.data.length ∧
    parse_vault_state c4u 5 = Except.ok (some
      { vault_address := c4u.pubkey
        owner := sliceBytes c4u.data 0 32
        balance :=
          if 40 ≤ c4u.data.length then u64_from_le (sliceBytes c4u.data 32 40)
          else c4u.lamports
        assets := []
        permissions := []
        last_updated := 5
        slot := c4u.slot
        write_version := c4u.write_version }) :=
  ⟨by decide, (C4_decoder_payload_shape c4short 5).1 (by decide),
   by decide, (C4_decoder_payload_shape c4u 5).2 (by decide)⟩

/-- C10: `parse_vault_state` is total — it always returns `Ok`, returning
`Ok(None)` exactly when the payload has fewer than 32 bytes; the two
slice-conversion error branches are unreachable. -/
theorem C10_parse_never_errors (u : AccountUpdate) (now : Int) :
    (∃ r, parse_vault_state u now = Except.ok r) ∧
    (parse_vault_state u now = Except.ok none ↔ u.data.length < 32) ∧
    (∀ e, parse_vault_state u now ≠ Except.error e) := by
  rw [parse_vault_state_eq]
  by_cases h : u.data.length < 32
  · exact ⟨⟨none, by simp [h]⟩, by simp [h], by simp [h]⟩
  · exact ⟨⟨some (parsedState u now), by simp [h]⟩, by simp [h], by simp [h]⟩

/-- Witness for `C10_parse_never_errors` at a concrete input. -/
theorem C10_witness :
    (∃ r, parse_vault_state c4u 5 = Except.ok r) ∧
    (parse_vault_state c4u 5 = Except.ok none ↔ c4u.data.length < 32) ∧
    (∀ e, parse_vault_state c4u 5 ≠ Except.error e) :=
  C10_parse_never_errors c4u 5

/-- Concrete 32-byte update showing the decoder's clock dependence. -/
def c8u : AccountUpdate :=
  { pubkey := [9], lamports := 1, owner := [2], executable := false,
    rent_epoch := 0, data := List.replicate 32 5, write_version := 0, slot := 0,
    is_startup := false }

/-- C8 counterexample: the decoder is not a function of the update alone —
it stamps `last_updated` with `OffsetDateTime::now_utc()`, so two calls on the
same input at different clock readings return different `VaultState`s. -/
theorem C8_counterexample : parse_vault_state c8u 0 ≠ parse_vault_state c8u 1 := by
  rw [parse_vault_state_eq, parse_vault_state_eq]
  simp [parsedState]
  decide

/-- Projection discarding the clock-dependent `last_updated` field. -/
def clearLastUpdated (r : Except String (Option VaultState)) :
    Except String (Option VaultState) :=
  match r with
  | Except.ok (some s) => Except.ok (some { s with last_updated := 0 })
  | x => x

/-- C8 (amended): the decoder performs no mutation and is deterministic as a
function of the update and the wall-clock reading; every field except
`last_updated` depends on the update alone, and `last_updated` equals the
clock reading of the call. -/
theorem C8_deterministic_up_to_clock (u : AccountUpdate) (t1 t2 : Int) :
    clearLastUpdated (parse_vault_state u t1) =
      clearLastUpdated (parse_vault_state u t2) ∧
    (∀ s, parse_vault_state u t1 = Except.ok (some s) → s.last_updated = t1) := by
  rw [parse_vault_state_eq, parse_vault_state_eq]
  by_cases h : u.data.length < 32
  · simp [h, clearLastUpdated]
  · constructor
    · simp [h, clearLastUpdated, parsedState]
    · intro s hs
      simp [h] at hs
      rw [← hs]
      simp [parsedState]

/-- Witness for `C8_deterministic_up_to_clock` at concrete inputs. -/
theorem C8_witness :
    clearLastUpdated (parse_vault_state c8u 0) =
      clearLastUpdated (parse_vault_state c8u 1) ∧
    (parsedState c8u 0).last_updated = 0 :=
  ⟨(C8_deterministic_up_to_clock c8u 0 1).1,
   (C8_deterministic_up_to_clock c8u 0 1).2 (parsedState c8u 0)
     (by rw [parse_vault_state_eq]; decide)⟩

/-- C2: dual-trigger flush — (a) a run in which exactly `N` items arrive with
no timer tick performs exactly one flush, containing exactly those items,
without any tick; (b) a run of fewer than `N` items followed by a tick flushes
exactly those items once; (c) a tick with an empty batch performs no flush. -/
theorem C2_dual_trigger_flush (N : Nat) (hN : 0 < N)
    (us vs : List AccountUpdate) :
    (us.length = N →
      runBatch N (us.map BEvent.recv) =
        { batch := [], flushes := [us], terminated := false }) ∧
    (vs.length < N → vs ≠ [] →
      runBatch N (vs.map BEvent.recv ++ [BEvent.tick]) =
        { batch := [], flushes := [vs], terminated := false }) ∧
    runBatch N [BEvent.tick] = initBatch := by
  refine ⟨?_, ?_, ?_⟩
  · intro hlen
    rcases List.eq_nil_or_concat us with rfl | ⟨ws, u, rfl⟩
    · simp at hlen
      omega
    · rw [List.concat_eq_append] at hlen ⊢
      have hws : ws.length + 1 = N := by simpa using hlen
      rw [runBatch, List.map_append, List.foldl_append,
        foldl_recv_accum N ws initBatch rfl (by simp [initBatch]; omega)]
      have hfull : N ≤ (([] ++ ws : List AccountUpdate) ++ [u]).length := by
        simp
        omega
      simp [stepBatch, initBatch, hfull]
      omega
  · intro hlt hne
    rw [runBatch, List.foldl_append,
      foldl_recv_accum N vs initBatch rfl (by simp [initBatch]; omega)]
    have hne2 : (([] ++ vs : List AccountUpdate)).isEmpty = false := by
      simp [hne]
    simp [stepBatch, initBatch, hne2, hne]
  · simp [runBatch, stepBatch, initBatch]

/-- Concrete updates used by batcher witnesses. -/
def w2a : AccountUpdate :=
  { pubkey := [3], lamports := 0, owner := [7], executable := false,
    rent_epoch := 0, data := [], write_version := 1, slot := 1,
    is_startup := false }

/-- Second concrete update used by batcher witnesses. -/
def w2b : AccountUpdate :=
  { pubkey := [4], lamports := 0, owner := [7], executable := false,
    rent_epoch := 0, data := [], write_version := 2, slot := 1,
    is_startup := false }

/-- Witness for `C2_dual_trigger_flush` with `N = 2`. -/
theorem C2_witness :
    runBatch 2 ([w2a, w2b].map BEvent.recv) =
      { batch := [], flushes := [[w2a, w2b]], terminated := false } ∧
    runBatch 2 ([w2a].map BEvent.recv ++ [BEvent.tick]) =
      { batch := [], flushes := [[w2a]], terminated := false } ∧
    runBatch 2 [BEvent.tick] = initBatch :=
  ⟨(C2_dual_trigger_flush 2 (by decide) [w2a, w2b] [w2a]).1 rfl,
   (C2_dual_trigger_flush 2 (by decide) [w2a, w2b] [w2a]).2.1 (by decide)
     (by decide),
   (C2_dual_trigger_flush 2 (by decide) [w2a, w2b] [w2a]).2.2⟩

/-- C9 counterexample: a run that receives one item (with `batch_size = 10`)
and then sees the channel close terminates with the item still in the batch and
`flushes = []` — the partially-filled batch is never handed to the pipeline,
contradicting the claimed shutdown flush. -/
theorem C9_counterexample :
    runBatch 10 [BEvent.recv w2a, BEvent.closed] =
      { batch := [w2a], flushes := [], terminated := true } := by
  decide

/-- C9 (amended): when the channel closes, the loop hits `break` immediately —
it performs no flush (the flush list is unchanged, the pending batch is
discarded), and a terminated loop processes nothing further. -/
theorem C9_close_discards_batch (N : Nat) (s : BatchState) (e : BEvent) :
    stepBatch N s BEvent.closed = { s with terminated := true } ∧
    (stepBatch N s BEvent.closed).flushes = s.flushes ∧
    (s.terminated = true → stepBatch N s e = s) := by
  obtain ⟨b, f, t⟩ := s
  refine ⟨?_, ?_, ?_⟩
  · cases t <;> simp [stepBatch]
  · cases t <;> simp [stepBatch]
  · intro h
    simp at h
    simp [stepBatch, h]

/-- Witness for `C9_close_discards_batch` at a concrete state. -/
theorem C9_witness :
    stepBatch 10 { batch := [w2a], flushes := [], terminated := false }
        BEvent.closed =
      { batch := [w2a], flushes := [], terminated := true } ∧
    stepBatch 10 { batch := [w2a], flushes := [], terminated := true }
        BEvent.tick =
      { batch := [w2a], flushes := [], terminated := true } :=
  ⟨(C9_close_discards_batch 10
      { batch := [w2a], flushes := [], terminated := false } BEvent.tick).1,
   (C9_close_discards_batch 10
      { batch := [w2a], flushes := [], terminated := true } BEvent.tick).2.2 rfl⟩

lemma stepBatch_owner_inv (pid : Pubkey) (N : Nat) (s : BatchState) (e : BEvent)
    (hb : ∀ x ∈ s.batch, x.owner = pid)
    (hf : ∀ b ∈ s.flushes, ∀ x ∈ b, x.owner = pid)
    (he : ∀ v, e = BEvent.recv v → v.owner = pid) :
    (∀ x ∈ (stepBatch N s e).batch, x.owner = pid) ∧
    (∀ b ∈ (stepBatch N s e).flushes, ∀ x ∈ b, x.owner = pid) := by
  have hbu : ∀ u : AccountUpdate, u.owner = pid →
      ∀ x ∈ s.batch ++ [u], x.owner = pid := by
    intro u hu x hx
    rcases List.mem_append.mp hx with hx2 | hx2
    · exact hb x hx2
    · simp at hx2
      subst hx2
      exact hu
  have hfb : ∀ c : List AccountUpdate, (∀ x ∈ c, x.owner = pid) →
      ∀ b ∈ s.flushes ++ [c], ∀ x ∈ b, x.owner = pid := by
    intro c hc b hbm
    rcases List.mem_append.mp hbm with hbm | hbm
    · exact hf b hbm
    · simp at hbm
      subst hbm
      exact hc
  by_cases ht : s.terminated
  · rw [stepBatch.eq_def, if_pos ht]
    exact ⟨hb, hf⟩
  · rw [stepBatch.eq_def, if_neg ht]
    cases e with
    | recv u =>
      have hu : u.owner = pid := he u rfl
      dsimp only
      by_cases hlen : N ≤ (s.batch ++ [u]).length
      · rw [if_pos hlen]
        exact ⟨by simp, hfb _ (hbu u hu)⟩
      · rw [if_neg hlen]
        exact ⟨hbu u hu, hf⟩
    | tick =>
      dsimp only
      by_cases hemp : s.batch.isEmpty
      · rw [if_pos hemp]
        exact ⟨hb, hf⟩
      · rw [if_neg hemp]
        exact ⟨by simp, hfb _ hb⟩
    | closed =>
      dsimp only
      exact ⟨hb, hf⟩

lemma foldl_owner_inv (pid : Pubkey) (N : Nat) (events : List BEvent) :
    ∀ s : BatchState,
      (∀ x ∈ s.batch, x.owner = pid) →
      (∀ b ∈ s.flushes, ∀ x ∈ b, x.owner = pid) →
      (∀ v, BEvent.recv v ∈ events → v.owner = pid) →
      ∀ b ∈ (events.foldl (stepBatch N) s).flushes, ∀ x ∈ b, x.owner = pid := by
  induction events with
  | nil =>
    intro s _ hf _
    simpa using hf
  | cons e rest ih =>
    intro s hb hf he
    have hstep := stepBatch_owner_inv pid N s e hb hf
      (fun v hv => he v (by rw [hv]; exact List.mem_cons_self _ _))
    simp only [List.foldl_cons]
    exact ih (stepBatch N s e) hstep.1 hstep.2
      (fun v hv => he v (List.mem_cons_of_mem _ hv))

lemma mem_process_batch_states (b : List AccountUpdate) (now : Int)
    (st : VaultState) (hst : st ∈ process_batch_states b now) :
    ∃ x ∈ b, parse_vault_state x now = Except.ok (some st) := by
  simp only [process_batch_states, List.mem_filterMap] at hst
  obtain ⟨x, hx, hmatch⟩ := hst
  refine ⟨x, hx, ?_⟩
  rcases hp : parse_vault_state x now with e | o
  · rw [hp] at hmatch
    simp at hmatch
  · rcases o with _ | s
    · rw [hp] at hmatch
      simp at hmatch
    · rw [hp] at hmatch
      simp at hmatch
      rw [hmatch]

/-- C7: filter exclusivity — `process_update` drops (returns `Ok` with the
channel unchanged) every update whose owner differs from the tracked program
id and enqueues every update whose owner matches; consequently a run of the
batcher over channel items that all passed the filter only ever flushes
batches of matching-owner updates, and every state a flushed batch persists
derives from a member of that batch. -/
theorem C7_filter_exclusivity (pid : Pubkey) (u : AccountUpdate)
    (chanOpen : Bool) (chan : List AccountUpdate) (N : Nat)
    (events : List BEvent) (now : Int) :
    (u.owner ≠ pid → process_update pid chanOpen chan u = Except.ok chan) ∧
    (u.owner = pid → chanOpen = true →
      process_update pid chanOpen chan u = Except.ok (chan ++ [u])) ∧
    ((∀ v, BEvent.recv v ∈ events → v.owner = pid) →
      ∀ b ∈ (runBatch N events).flushes, ∀ x ∈ b, x.owner = pid) ∧
    (∀ b : List AccountUpdate, ∀ st ∈ process_batch_states b now,
      ∃ x ∈ b, parse_vault_state x now = Except.ok (some st)) := by
  refine ⟨?_, ?_, ?_, ?_⟩
  · intro h
    simp [process_update, h]
  · intro h hopen
    simp [process_update, h, hopen]
  · intro he
    exact foldl_owner_inv pid N events initBatch (by simp [initBatch])
      (by simp [initBatch]) he
  · intro b st hst
    exact mem_process_batch_states b now st hst

/-- Concrete non-vault-owned update for the C7 witness. -/
def c7other : AccountUpdate :=
  { pubkey := [5], lamports := 0, owner := [8], executable := false,
    rent_epoch := 0, data := [], write_version := 1, slot := 1,
    is_startup := false }

/-- Witness for `C7_filter_exclusivity` with tracked program id `[7]`. -/
theorem C7_witness :
    process_update [7] true [] c7other = Except.ok [] ∧
    process_update [7] true [] w2a = Except.ok ([] ++ [w2a]) ∧
    (∀ b ∈ (runBatch 5 [BEvent.recv w2a]).flushes, ∀ x ∈ b, x.owner = [7]) ∧
    (∀ st ∈ process_batch_states [w2a] 0,
      ∃ x ∈ [w2a], parse_vault_state x 0 = Except.ok (some st)) :=
  ⟨(C7_filter_exclusivity [7] c7other true [] 5 [BEvent.recv w2a] 0).1
     (by decide),
   (C7_filter_exclusivity [7] w2a true [] 5 [BEvent.recv w2a] 0).2.1 rfl rfl,
   (C7_filter_exclusivity [7] w2a true [] 5 [BEvent.recv w2a] 0).2.2.1
     (by intro v hv; simp at hv; rw [hv]; rfl),
   fun st hst =>
     (C7_filter_exclusivity [7] w2a true [] 5 [BEvent.recv w2a] 0).2.2.2
       [w2a] st hst⟩

/-- C1: persistence upsert is unconditional last-write-wins — with a row for
`s2.vault_address` already stored (whatever its slot/write_version, e.g. the
row of an earlier `s1`), successfully upserting `s2` via either
`upsert_vault_state` or `batch_upsert_vault_states` leaves the row built from
`s2`'s fields stored under that address; no `(slot, write_version)` comparison
guards the overwrite. -/
theorem C1_unconditional_last_write_wins (pkStr : Pubkey → String)
    (serA : List (String × AssetBalance) → Except String String)
    (serP : List Permission → Except String String)
    (exec : VaultRow → Option String) (nowDb : Int)
    (db : List (String × VaultRow)) (s1 s2 : VaultState) (r1 : VaultRow)
    (aj pj : String)
    (haddr : s1.vault_address = s2.vault_address)
    (hstored : lookupKV db (pkStr s2.vault_address) = some r1)
    (hA : serA s2.assets = Except.ok aj)
    (hP : serP s2.permissions = Except.ok pj)
    (hE : exec (rowOf pkStr nowDb s2 aj pj) = none) :
    (∃ db2, upsert_vault_state pkStr serA serP exec nowDb db s2 =
        Except.ok db2 ∧
      lookupKV db2 (pkStr s2.vault_address) =
        some (rowOf pkStr nowDb s2 aj pj)) ∧
    (∃ db3, batch_upsert_vault_states pkStr serA serP exec nowDb db [s2] =
        Except.ok db3 ∧
      lookupKV db3 (pkStr s2.vault_address) =
        some (rowOf pkStr nowDb s2 aj pj)) := by
  have hrw : recWrite pkStr serA serP exec nowDb s2 =
      Except.ok (rowOf pkStr nowDb s2 aj pj) := by
    simp [recWrite, hA, hP, hE]
  constructor
  · refine ⟨upsertRow db (pkStr s2.vault_address) (rowOf pkStr nowDb s2 aj pj),
      ?_, ?_⟩
    · simp [upsert_vault_state, hrw]
    · rw [lookupKV_upsertRow]
      simp
  · refine ⟨upsertRow db (pkStr s2.vault_address) (rowOf pkStr nowDb s2 aj pj),
      ?_, ?_⟩
    · simp [batch_upsert_vault_states, batchUpsertGo, hrw]
    · rw [lookupKV_upsertRow]
      simp

/-- Rendering of pubkeys used by the database witnesses. -/
def c1pk : Pubkey → String := fun p => "pk:" ++ toString p.length

/-- Assets serializer used by the database witnesses (always succeeds). -/
def c1serA : List (String × AssetBalance) → Except String String :=
  fun _ => Except.ok "A"

/-- Permissions serializer used by the database witnesses: fails on any
non-empty permission list. -/
def c1serP : List Permission → Except String String :=
  fun l => if l.length = 0 then Except.ok "P" else Except.error "ser fail"

/-- Row execution oracle used by the database witnesses (always succeeds). -/
def c1exec : VaultRow → Option String := fun _ => none

/-- Stored state with `slot = 10` for the C1 witness. -/
def c1s1 : VaultState :=
  { vault_address := [1], owner := [2], balance := 100, assets := [],
    permissions := [], last_updated := 50, slot := 10, write_version := 9 }

/-- Incoming stale state with `slot = 5` for the C1 witness. -/
def c1s2 : VaultState :=
  { vault_address := [1], owner := [2], balance := 40, assets := [],
    permissions := [], last_updated := 60, slot := 5, write_version := 3 }

/-- The table holding `c1s1`'s row before the stale upsert. -/
def c1db : List (String × VaultRow) :=
  [(c1pk [1], rowOf c1pk 0 c1s1 "A" "P")]

/-- Witness for `C1_unconditional_last_write_wins`: a stored row with
`slot = 10` is replaced by an incoming `slot = 5` row. -/
theorem C1_witness :
    ((∃ db2, upsert_vault_state c1pk c1serA c1serP c1exec 0 c1db c1s2 =
        Except.ok db2 ∧
      lookupKV db2 (c1pk c1s2.vault_address) =
        some (rowOf c1pk 0 c1s2 "A" "P")) ∧
    (∃ db3, batch_upsert_vault_states c1pk c1serA c1serP c1exec 0 c1db [c1s2] =
        Except.ok db3 ∧
      lookupKV db3 (c1pk c1s2.vault_address) =
        some (rowOf c1pk 0 c1s2 "A" "P"))) ∧
    (rowOf c1pk 0 c1s1 "A" "P").slot = 10 ∧
    (rowOf c1pk 0 c1s2 "A" "P").slot = 5 :=
  ⟨C1_unconditional_last_write_wins c1pk c1serA c1serP c1exec 0 c1db
      c1s1 c1s2 (rowOf c1pk 0 c1s1 "A" "P") "A" "P" rfl (by decide) rfl rfl rfl,
   by decide, by decide⟩

lemma batchUpsertGo_error (pkStr : Pubkey → String)
    (serA : List (String × AssetBalance) → Except String String)
    (serP : List Permission → Except String String)
    (exec : VaultRow → Option String) (nowDb : Int) :
    ∀ (states : List VaultState) (t : List (String × VaultRow)),
      (∃ s ∈ states, ∃ e,
        recWrite pkStr serA serP exec nowDb s = Except.error e) →
      ∃ e2, batchUpsertGo pkStr serA serP exec nowDb t states =
        Except.error e2 := by
  intro states
  induction states with
  | nil =>
    intro t hfail
    simp at hfail
  | cons s rest ih =>
    intro t hfail
    rcases hrw : recWrite pkStr serA serP exec nowDb s with e | row
    · exact ⟨e, by simp [batchUpsertGo, hrw]⟩
    · rcases hfail with ⟨x, hx, e, he⟩
      rcases List.mem_cons.mp hx with rfl | hxr
      · rw [hrw] at he
        exact absurd he (by simp)
      · obtain ⟨e2, he2⟩ :=
          ih (upsertRow t (pkStr s.vault_address) row) ⟨x, hxr, e, he⟩
        exact ⟨e2, by simp [batchUpsertGo, hrw, he2]⟩

lemma batchUpsertGo_ok (pkStr : Pubkey → String)
    (serA : List (String × AssetBalance) → Except String String)
    (serP : List Permission → Except String String)
    (exec : VaultRow → Option String) (nowDb : Int) :
    ∀ (states : List VaultState) (t : List (String × VaultRow)),
      (∀ s ∈ states, ∃ row,
        recWrite pkStr serA serP exec nowDb s = Except.ok row) →
      ∃ t2, batchUpsertGo pkStr serA serP exec nowDb t states =
          Except.ok t2 ∧
        (∀ s ∈ states, ∃ row,
          lookupKV t2 (pkStr s.vault_address) = some row) ∧
        (∀ k r, lookupKV t k = some r → ∃ r2, lookupKV t2 k = some r2) := by
  intro states
  induction states with
  | nil =>
    intro t _
    exact ⟨t, by simp [batchUpsertGo], by simp, fun k r h => ⟨r, h⟩⟩
  | cons s rest ih =>
    intro t hok
    obtain ⟨row, hrow⟩ := hok s (List.mem_cons_self _ _)
    obtain ⟨t2, ht2, hmem, hpres⟩ :=
      ih (upsertRow t (pkStr s.vault_address) row)
        (fun x hx => hok x (List.mem_cons_of_mem _ hx))
    refine ⟨t2, by simp [batchUpsertGo, hrow, ht2], ?_, ?_⟩
    · intro x hx
      rcases List.mem_cons.mp hx with rfl | hxr
      · have hup : lookupKV (upsertRow t (pkStr x.vault_address) row)
            (pkStr x.vault_address) = some row := by
          rw [lookupKV_upsertRow]
          simp
        exact hpres _ row hup
      · exact hmem x hxr
    · intro k r hk
      rcases hkey : lookupKV (upsertRow t (pkStr s.vault_address) row) k
        with _ | r2
      · rw [lookupKV_upsertRow] at hkey
        by_cases hkk : pkStr s.vault_address = k
        · simp [hkk] at hkey
        · simp [hkk, hk] at hkey
      · exact hpres k r2 hkey

/-- C3: batch upsert is all-or-nothing — every row of
`batch_upsert_vault_states` is written inside one transaction: if serializing
or executing any record of the batch fails, the call returns an error and the
caller-visible table is unchanged; if no record fails, the transaction commits
and every record's address is stored. -/
theorem C3_batch_atomicity (pkStr : Pubkey → String)
    (serA : List (String × AssetBalance) → Except String String)
    (serP : List Permission → Except String String)
    (exec : VaultRow → Option String) (nowDb : Int)
    (db : List (String × VaultRow)) (states : List VaultState) :
    ((∃ s ∈ states, ∃ e,
        recWrite pkStr serA serP exec nowDb s = Except.error e) →
      (∃ e2, batch_upsert_vault_states pkStr serA serP exec nowDb db states =
          Except.error e2) ∧
      commitBatch pkStr serA serP exec nowDb db states = db) ∧
    ((∀ s ∈ states, ∃ row,
        recWrite pkStr serA serP exec nowDb s = Except.ok row) →
      ∃ t2, batch_upsert_vault_states pkStr serA serP exec nowDb db states =
          Except.ok t2 ∧
        commitBatch pkStr serA serP exec nowDb db states = t2 ∧
        ∀ s ∈ states, ∃ row,
          lookupKV t2 (pkStr s.vault_address) = some row) := by
  constructor
  · intro hfail
    obtain ⟨e2, he2⟩ :=
      batchUpsertGo_error pkStr serA serP exec nowDb states db hfail
    have he3 : batch_upsert_vault_states pkStr serA serP exec nowDb db states =
        Except.error e2 := he2
    exact ⟨⟨e2, he3⟩, by simp [commitBatch, he3]⟩
  · intro hok
    obtain ⟨t2, ht2, hmem, _⟩ :=
      batchUpsertGo_ok pkStr serA serP exec nowDb states db hok
    have ht3 : batch_upsert_vault_states pkStr serA serP exec nowDb db states =
        Except.ok t2 := ht2
    exact ⟨t2, ht3, by simp [commitBatch, ht3], hmem⟩

/-- State whose permissions fail to serialize under `c1serP`. -/
def c3bad : VaultState :=
  { vault_address := [3], owner := [2], balance := 1, assets := [],
    permissions := [{ pubkey := [2], permission_type := PermissionType.admin,
                      granted_at := 0 }],
    last_updated := 0, slot := 1, write_version := 1 }

/-- Witness for `C3_batch_atomicity`: a batch containing a record that fails
to serialize errors out and leaves the table unchanged; an all-good batch
commits with the record stored. -/
theorem C3_witness :
    (((∃ e2, batch_upsert_vault_states c1pk c1serA c1serP c1exec 0 c1db
          [c1s2, c3bad] = Except.error e2) ∧
      commitBatch c1pk c1serA c1serP c1exec 0 c1db [c1s2, c3bad] = c1db)) ∧
    (∃ t2, batch_upsert_vault_states c1pk c1serA c1serP c1exec 0 c1db [c1s2] =
        Except.ok t2 ∧
      commitBatch c1pk c1serA c1serP c1exec 0 c1db [c1s2] = t2 ∧
      ∀ s ∈ [c1s2], ∃ row, lookupKV t2 (c1pk s.vault_address) = some row) :=
  ⟨(C3_batch_atomicity c1pk c1serA c1serP c1exec 0 c1db [c1s2, c3bad]).1
     ⟨c3bad, by decide, "ser fail", rfl⟩,
   (C3_batch_atomicity c1pk c1serA c1serP c1exec 0 c1db [c1s2]).2
     (by intro s hs
         simp at hs
         subst hs
         exact ⟨rowOf c1pk 0 c1s2 "A" "P", rfl⟩)⟩

/-- C5: `RedisCache::get` re-validates the application-level TTL window — with
an entry stored for the address and a clock reading at or after its
`cached_at` (within the `i64` second range), the stored state is returned as a
hit iff strictly less than `ttl_seconds` have elapsed; at
`cached_at + ttl_seconds` or later the entry is deleted from the keyspace and
a miss is reported; an absent key is a miss that leaves the keyspace
unchanged. -/
theorem C5_ttl_revalidation (store : List (String × CacheEntry)) (now : Int)
    (addr : String) (entry : CacheEntry)
    (hfound : lookupKV store (cacheKey addr) = some entry)
    (hpast : entry.cached_at ≤ now)
    (hrange : now - entry.cached_at < 2 ^ 63) :
    (now - entry.cached_at < (entry.ttl_seconds : Int) →
      cache_get store now addr = (some entry.vault_state, store)) ∧
    ((entry.ttl_seconds : Int) ≤ now - entry.cached_at →
      cache_get store now addr = (none, delKV store (cacheKey addr)) ∧
      lookupKV (delKV store (cacheKey addr)) (cacheKey addr) = none) ∧
    (∀ a2, lookupKV store (cacheKey a2) = none →
      cache_get store now a2 = (none, store)) := by
  have hage : u64_of_i64_wrap (now - entry.cached_at) =
      (now - entry.cached_at).toNat := by
    unfold u64_of_i64_wrap
    rw [Int.emod_eq_of_lt (by omega) (by nlinarith [hrange])]
  refine ⟨?_, ?_, ?_⟩
  · intro hlt
    have hc : u64_of_i64_wrap (now - entry.cached_at) < entry.ttl_seconds := by
      rw [hage]
      omega
    simp [cache_get, hfound, hc]
  · intro hge
    have hc : ¬ u64_of_i64_wrap (now - entry.cached_at) < entry.ttl_seconds := by
      rw [hage]
      omega
    exact ⟨by simp [cache_get, hfound, hc], lookupKV_delKV store (cacheKey addr)⟩
  · intro a2 hnone
    simp [cache_get, hnone]

/-- Cached state used by the C5 witness. -/
def c5state : VaultState :=
  { vault_address := [1], owner := [2], balance := 77, assets := [],
    permissions := [], last_updated := 90, slot := 12, write_version := 2 }

/-- Cache entry cached at t = 100 with a 300-second TTL. -/
def c5entry : CacheEntry :=
  { vault_state := c5state, cached_at := 100, ttl_seconds := 300 }

/-- Keyspace holding `c5entry` under the key for address "addr". -/
def c5store : List (String × CacheEntry) := [(cacheKey "addr", c5entry)]

/-- Witness for `C5_ttl_revalidation`: a hit at t = 150, an expiry (miss plus
deletion) at exactly t = 400 = cached_at + ttl, and a miss for an absent key. -/
theorem C5_witness :
    cache_get c5store 150 "addr" = (some c5state, c5store) ∧
    (cache_get c5store 400 "addr" = (none, delKV c5store (cacheKey "addr")) ∧
      lookupKV (delKV c5store (cacheKey "addr")) (cacheKey "addr") = none) ∧
    cache_get c5store 150 "other" = (none, c5store) :=
  ⟨(C5_ttl_revalidation c5store 150 "addr" c5entry rfl (by decide)
      (by norm_num [c5entry])).1 (by decide),
   (C5_ttl_revalidation c5store 400 "addr" c5entry rfl (by decide)
      (by norm_num [c5entry])).2.1 (by decide),
   (C5_ttl_revalidation c5store 150 "addr" c5entry rfl (by decide)
      (by norm_num [c5entry])).2.2 "other" (by decide)⟩

/-- Reader cache whose lookup fails, for the C6 counterexample. -/
def c6failCache : CacheOps :=
  { get := Except.error "redis connection refused"
    set := fun _ => Except.ok () }

/-- C6 counterexample: with the cache present but its lookup failing while the
persistence sink holds the state, `get_vault_state` returns the cache error to
the caller instead of falling back to the sink's result. -/
theorem C6_counterexample :
    get_vault_state (some c6failCache) (Except.ok (some c5state)) =
      Except.error "redis connection refused" ∧
    get_vault_state (some c6failCache) (Except.ok (some c5state)) ≠
      Except.ok (some c5state) := by
  constructor
  · rfl
  · decide

/-- C6 (amended): reader cache operations are not best-effort — a cache lookup
error, and a cache repopulation error after a successful sink read, are both
propagated to the caller; the sink fallback (and its result) is returned only
when the cache reports a clean miss (`Ok(None)`) and the repopulation, when
attempted, succeeds. -/
theorem C6_cache_errors_propagate (c : CacheOps)
    (dbGet : Except String (Option VaultState)) :
    (∀ e, c.get = Except.error e →
      get_vault_state (some c) dbGet = Except.error e) ∧
    (∀ s, c.get = Except.ok (some s) →
      get_vault_state (some c) dbGet = Except.ok (some s)) ∧
    (c.get = Except.ok none → dbGet = Except.ok none →
      get_vault_state (some c) dbGet = Except.ok none) ∧
    (∀ s e, c.get = Except.ok none → dbGet = Except.ok (some s) →
      c.set s = Except.error e →
      get_vault_state (some c) dbGet = Except.error e) ∧
    (∀ s, c.get = Except.ok none → dbGet = Except.ok (some s) →
      c.set s = Except.ok () →
      get_vault_state (some c) dbGet = Except.ok (some s)) := by
  refine ⟨?_, ?_, ?_, ?_, ?_⟩
  · intro e he
    simp [get_vault_state, he]
  · intro s hs
    simp [get_vault_state, hs]
  · intro hmiss hdb
    simp [get_vault_state, hmiss, hdb]
  · intro s e hmiss hdb hset
    simp [get_vault_state, hmiss, hdb, hset]
  · intro s hmiss hdb hset
    simp [get_vault_state, hmiss, hdb, hset]

/-- Reader cache that misses and repopulates successfully, for the C6 witness. -/
def c6missCache : CacheOps :=
  { get := Except.ok none
    set := fun _ => Except.ok () }

/-- Reader cache that misses and whose repopulation fails, for the C6 witness. -/
def c6badSetCache : CacheOps :=
  { get := Except.ok none
    set := fun _ => Except.error "set fail" }

/-- Witness for `C6_cache_errors_propagate` at concrete cache outcomes. -/
theorem C6_witness :
    get_vault_state (some c6failCache) (Except.ok (some c5state)) =
      Except.error "redis connection refused" ∧
    get_vault_state (some c6badSetCache) (Except.ok (some c5state)) =
      Except.error "set fail" ∧
    get_vault_state (some c6missCache) (Except.ok (some c5state)) =
      Except.ok (some c5state) ∧
    get_vault_state (some c6missCache) (Except.ok none) = Except.ok none :=
  ⟨(C6_cache_errors_propagate c6failCache (Except.ok (some c5state))).1
     "redis connection refused" rfl,
   (C6_cache_errors_propagate c6badSetCache (Except.ok (some c5state))).2.2.2.1
     c5state "set fail" rfl rfl rfl,
   (C6_cache_errors_propagate c6missCache (Except.ok (some c5state))).2.2.2.2
     c5state rfl rfl rfl,
   (C6_cache_errors_propagate c6missCache (Except.ok none)).2.2.1 rfl rfl⟩
